import Mathlib

/-!
Shallow embedding of the wetness-field simulation engine of src/main.js
(the Ame rain-on-concrete piece).

Numbers are idealised as exact rationals wherever the source only uses
field arithmetic, comparisons, floor and min/max (JS doubles are
rationals, so every actual runtime value is representable); the two
passes that apply transcendental library functions (Math.sqrt, Math.sin,
Math.pow with a fractional exponent) are embedded over ℝ.  Every call to
Math.random() is modelled as an explicit parameter u with 0 ≤ u < 1.
The per-pixel grids (wetMap, absorptionMap, highlightMap,
evaporationMap) are functions ℕ → ℚ or ℕ → ℝ indexed by the linear
pixel index y * width + x, exactly as the source indexes its
Float32Arrays.
-/

namespace Ame

/-! ### CONFIG constants (src/main.js lines 7-41) -/

def baseDensity : ℚ := 2.4

def gravityWall : ℚ := 0.0028

def wallMaxSpeed : ℚ := 0.72

def floorMinSpeed : ℚ := 0.045

def maxDroplets : ℕ := 420

def depositScale : ℚ := 0.78

def cornerBoostCfg : ℚ := 1.45

def streakStretch : ℚ := 2.1

def floorStretch : ℚ := 1.6

def saturationCap : ℚ := 1.3

def spreadSamples : ℚ := 900

def spreadRate : ℚ := 0.12

def heatPulseAmplitude : ℚ := 0.00002

def heatPulsePeriodMs : ℚ := 16000

/-! ### Diffusion process (capillaryFlow / randomNeighbor, lines 457-488)

One iteration consumes three Math.random() draws: `uIdx` picks the
source pixel, `uNb` picks the neighbour, `uTr` randomises the
transferred fraction. -/

structure FlowRand where
  uIdx : ℚ
  uNb : ℚ
  uTr : ℚ

def FlowRand.Valid (r : FlowRand) : Prop :=
  0 ≤ r.uIdx ∧ r.uIdx < 1 ∧ 0 ≤ r.uNb ∧ r.uNb < 1 ∧ 0 ≤ r.uTr ∧ r.uTr < 1

def neighborChoices (W H index : ℕ) : List ℕ :=
  (if 0 < index % W then [index - 1] else []) ++
  (if index % W < W - 1 then [index + 1] else []) ++
  (if 0 < index / W then [index - W] else []) ++
  (if index / W < H - 1 then [index + W] else [])

def randomNeighbor (W H index : ℕ) (u : ℚ) : Option ℕ :=
  let choices := neighborChoices W H index
  choices.get? (⌊u * choices.length⌋).toNat

def flowIndex (W H : ℕ) (r : FlowRand) : ℕ :=
  (⌊r.uIdx * ((W * H : ℕ) : ℚ)⌋).toNat

def flowIter (W H : ℕ) (w : ℕ → ℚ) (r : FlowRand) : ℕ → ℚ :=
  let index := flowIndex W H r
  let wetness := w index
  if wetness < 0.12 then w
  else
    match randomNeighbor W H index r.uNb with
    | none => w
    | some neighborIndex =>
      let diff := wetness - w neighborIndex
      if diff ≤ 0 then w
      else
        let transfer := diff * (0.12 + spreadRate * r.uTr)
        let w1 := Function.update w index (w index - transfer)
        Function.update w1 neighborIndex (min saturationCap (w1 neighborIndex + transfer * 0.94))

def capillaryFlow (W H : ℕ) (rainIntensity : ℚ) (rands : List FlowRand) (w : ℕ → ℚ) : ℕ → ℚ :=
  if ⌊spreadSamples * rainIntensity⌋ < 1 then w
  else rands.foldl (flowIter W H) w

/-- Derived selection weight of a candidate pixel `c` under randomNeighbor:
with u uniform on [0,1), position ⌊u·len⌋ of the choice list is uniform, so
`c` is drawn with probability (occurrences of c) / (length of the list). -/
def neighborWeight (W H index c : ℕ) : ℚ :=
  ((neighborChoices W H index).count c : ℚ) / ((neighborChoices W H index).length : ℚ)

/-! ### Rain spawning (spawnRain, lines 307-320)

`spawnRain` performs one tick: it adds the fractional target to the
accumulator, takes the floor as this tick's spawn count, keeps the
remainder, and spawns until the hard droplet cap is hit.  `spawnRun`
iterates it from a freshly rebuilt state (accumulator 0), with `lens k`
the live droplet count entering tick k. -/

def spawnRain (rainIntensity delta : ℚ) (len : ℕ) (acc : ℚ) : ℕ × ℚ :=
  let targetDrops := baseDensity * rainIntensity * delta
  let acc1 := acc + targetDrops
  let spawnCount := ⌊acc1⌋
  (min spawnCount.toNat (maxDroplets - len), acc1 - spawnCount)

def spawnRun (rainIntensity delta : ℚ) (lens : ℕ → ℕ) : ℕ → ℕ × ℚ
  | 0 => (0, 0)
  | n + 1 =>
    let p := spawnRun rainIntensity delta lens n
    let s := spawnRain rainIntensity delta (lens n) p.2
    (p.1 + s.1, s.2)

/-! ### Droplet particle system (lines 344-411)

A droplet update emits the splashAt calls it makes as data (SplashCall
records of the arguments), so that deposit events can be counted; the
two "terminal" (larger) deposits of the corner state machine are the
hand-off splash of updateWallDroplet and the retirement splash of
updateDroplets, kept in separate Option fields of the step result. -/

inductive Surface
  | wall
  | floor
deriving DecidableEq

structure Droplet where
  surface : Surface
  x : ℚ
  y : ℚ
  vx : ℚ
  vy : ℚ
  radius : ℚ
  strength : ℚ
  life : ℚ
  hasSplashed : Bool

structure SplashCall where
  cx : ℚ
  cy : ℚ
  radius : ℚ
  intensity : ℚ
  stretchX : ℚ
  stretchY : ℚ

structure Geo where
  wallTopOffset : ℚ
  floorHeight : ℚ
  cornerSoftness : ℚ

structure DropRand where
  jitter : ℚ
  u1 : ℚ
  u2 : ℚ
  u3 : ℚ

def randomRange (lo hi u : ℚ) : ℚ := u * (hi - lo) + lo

def sprinkleStreak (x y radius strength : ℚ) : List SplashCall :=
  [⟨x, y, radius * 0.9, strength * 0.42, 0.6, streakStretch⟩,
   ⟨x + radius * 0.3, y + radius * 0.4, radius * 0.6, strength * 0.25, 0.75, streakStretch * 1.2⟩]

def sprinkleFlow (x y radius strength : ℚ) : List SplashCall :=
  [⟨x, y, radius, strength * 0.55, floorStretch, 1⟩,
   ⟨x - radius * 0.8, y - radius * 1.2, radius * 0.5, strength * 0.22, floorStretch * 1.4, 0.6⟩]

def updateWallDroplet (geo : Geo) (pixelRatio delta : ℚ) (r : DropRand) (d : Droplet) :
    Droplet × List SplashCall × Option SplashCall :=
  let vy := min (d.vy + gravityWall * delta) wallMaxSpeed
  let x := d.x + d.vx * delta
  let y := d.y + vy * delta
  let vx0 := d.vx * 0.955
  let vx1 := if geo.wallTopOffset ≤ y then vx0 + (r.jitter - 0.5) * 0.012 * pixelRatio else vx0
  let streaks := sprinkleStreak x y d.radius d.strength
  let handoffLine := geo.floorHeight - geo.cornerSoftness * 0.6
  if handoffLine ≤ y then
    let y2 := handoffLine + d.radius * 0.6
    let vx2 := max vx1 (randomRange 0.15 0.45 r.u1 * pixelRatio)
    let vy2 := randomRange floorMinSpeed (floorMinSpeed * 1.8) r.u2
    let radius2 := d.radius * randomRange 1.08 1.26 r.u3
    let d2 : Droplet :=
      ⟨Surface.floor, x, y2, vx2, vy2, radius2, d.strength, d.life, true⟩
    (d2, streaks, some ⟨x, y2 + radius2 * 0.5, radius2 * 1.3, d.strength * 1.3, floorStretch, 0.9⟩)
  else
    ({ d with x := x, y := y, vx := vx1, vy := vy }, streaks, none)

def updateFloorDroplet (pixelRatio delta : ℚ) (r : DropRand) (d : Droplet) :
    Droplet × List SplashCall :=
  let vy := max (d.vy - 0.0008 * delta) floorMinSpeed
  let x := d.x + d.vx * delta
  let y := d.y + vy * delta
  let vx := d.vx * 0.985 + (r.jitter - 0.5) * 0.0009 * delta * pixelRatio
  ({ d with x := x, y := y, vx := vx, vy := vy }, sprinkleFlow x y d.radius d.strength)

structure StepResult where
  droplet : Droplet
  retired : Bool
  streaks : List SplashCall
  transitionSplash : Option SplashCall
  retireSplash : Option SplashCall

def StepResult.terminalCount (s : StepResult) : ℕ :=
  s.transitionSplash.elim 0 (fun _ => 1) + s.retireSplash.elim 0 (fun _ => 1)

def stepDroplet (geo : Geo) (pixelRatio width height delta : ℚ) (r : DropRand) (d : Droplet) :
    StepResult :=
  let d0 := { d with life := d.life - delta }
  let step :=
    match d0.surface with
    | Surface.wall => updateWallDroplet geo pixelRatio delta r d0
    | Surface.floor =>
      let p := updateFloorDroplet pixelRatio delta r d0
      (p.1, p.2, none)
  let d1 := step.1
  if d1.life ≤ 0 ∨ height + 20 < d1.y ∨ d1.x < -40 ∨ width + 40 < d1.x then
    { droplet := d1, retired := true, streaks := step.2.1, transitionSplash := step.2.2,
      retireSplash :=
        if d1.hasSplashed = false ∧ d1.surface = Surface.floor then
          some ⟨d1.x, d1.y, d1.radius * 1.4, d1.strength * 1.2, floorStretch, 1.05⟩
        else none }
  else
    { droplet := d1, retired := false, streaks := step.2.1, transitionSplash := step.2.2,
      retireSplash := none }

def runDroplet (geo : Geo) (pixelRatio width height : ℚ) :
    List (ℚ × DropRand) → Droplet → Droplet × Bool × ℕ
  | [], d => (d, false, 0)
  | (delta, r) :: rest, d =>
    let s := stepDroplet geo pixelRatio width height delta r d
    if s.retired then (s.droplet, true, s.terminalCount)
    else
      let p := runDroplet geo pixelRatio width height rest s.droplet
      (p.1, p.2.1, s.terminalCount + p.2.2)

/-! ### Deposition kernel (splashAt / cornerBoostFactor, lines 413-445)

Over ℝ because the source applies Math.sqrt and Math.pow(·, 2.6).  The
double loop over the clamped bounding box writes each pixel index
y * width + x at most once and reads only that pixel, so it is embedded
pointwise: pixel i = y * width + x receives the deposit exactly when its
coordinates lie in the clamped box and the normalised elliptical
distance is at most 1. -/

noncomputable def cornerBoostFactor (W H : ℕ) (cornerX cornerY x y : ℝ) : ℝ :=
  1 + (cornerBoostCfg : ℝ) *
    (max 0 (1 - max 1 (Real.sqrt ((x - cornerX) ^ 2 + (y - cornerY) ^ 2)) /
      (min (W : ℝ) (H : ℝ) * 0.55))) ^ (2.6 : ℝ)

noncomputable def splashAt (W H : ℕ) (absorptionMap highlightMap : ℕ → ℝ)
    (cornerX cornerY : ℝ) (w : ℕ → ℝ) (cx cy radius intensity stretchX stretchY : ℝ) :
    ℕ → ℝ :=
  if radius = 0 ∨ intensity ≤ 0 then w
  else if cx < -radius ∨ cy < -radius ∨ (W : ℝ) + radius < cx ∨ (H : ℝ) + radius < cy then w
  else
    let sx := if stretchX = 0 then 1 else stretchX
    let sy := if stretchY = 0 then 1 else stretchY
    let minX : ℤ := max 0 ⌊cx - radius * sx⌋
    let maxX : ℤ := min ((W : ℤ) - 1) ⌈cx + radius * sx⌉
    let minY : ℤ := max 0 ⌊cy - radius * sy⌋
    let maxY : ℤ := min ((H : ℤ) - 1) ⌈cy + radius * sy⌉
    fun i =>
      let px : ℕ := i % W
      let py : ℕ := i / W
      let dx := ((px : ℝ) - cx) / (radius * sx)
      let dy := ((py : ℝ) - cy) / (radius * sy)
      let distSq := dx * dx + dy * dy
      if minX ≤ (px : ℤ) ∧ (px : ℤ) ≤ maxX ∧ minY ≤ (py : ℤ) ∧ (py : ℤ) ≤ maxY ∧ distSq ≤ 1 then
        let falloff := (1 - Real.sqrt distSq) * intensity * (depositScale : ℝ)
        let absorption := absorptionMap i * (1 + highlightMap i * 0.25)
        min ((saturationCap : ℚ) : ℝ)
          (w i + falloff * absorption * cornerBoostFactor W H cornerX cornerY (px : ℝ) (py : ℝ))
      else w i

/-! ### Evaporation process (evaporate, lines 447-455)

Over ℝ because the source applies Math.sin.  The JS `%` operator on
numbers is truncating fmod. -/

noncomputable def jsTrunc (x : ℝ) : ℝ := if 0 ≤ x then (⌊x⌋ : ℝ) else (⌈x⌉ : ℝ)

noncomputable def jsFmod (a b : ℝ) : ℝ := a - b * jsTrunc (a / b)

noncomputable def heatPulse (heatPulseTime : ℝ) : ℝ :=
  ((heatPulseAmplitude : ℚ) : ℝ) *
    (Real.sin (jsFmod heatPulseTime ((heatPulsePeriodMs : ℚ) : ℝ) / ((heatPulsePeriodMs : ℚ) : ℝ) *
      Real.pi * 2) * 0.5 + 0.5)

noncomputable def evaporate (evaporationMap : ℕ → ℝ) (heatPulseTime delta : ℝ) (w : ℕ → ℝ) :
    ℕ → ℝ :=
  fun i => max 0 (w i - (evaporationMap i + heatPulse (heatPulseTime + delta)) * delta)

/-! ### Concrete instances used by witnesses and counterexamples -/

/-- A 2x2 field holding 1 at pixel 0 and 0 elsewhere. -/
def wCex : ℕ → ℚ := fun i => if i = 0 then 1 else 0

/-- Random draws that pick pixel 0, its first neighbour, and the minimal
transfer fraction. -/
def rCex : FlowRand := ⟨0, 0, 0⟩

def zeroMapR : ℕ → ℝ := fun _ => 0

def oneMapR : ℕ → ℝ := fun _ => 1

def zeroMapQ : ℕ → ℚ := fun _ => 0

/-- A concrete corner geometry with the hand-off line at y = 100. -/
def geoW : Geo := ⟨0, 100, 0⟩

/-- A concrete wall droplet sitting exactly on the hand-off line. -/
def dW : Droplet := ⟨Surface.wall, 10, 100, 0, 0, 5, 1, 1000, false⟩

/-- A single 16ms tick with all random draws at one half. -/
def traceW : List (ℚ × DropRand) := [(16, ⟨1 / 2, 1 / 2, 1 / 2, 1 / 2⟩)]

/-! ### Helper lemmas -/

lemma neighborChoices_ne_self {W H index nb : ℕ} (hW : 1 ≤ W)
    (h : nb ∈ neighborChoices W H index) : nb ≠ index := by
  unfold neighborChoices at h
  simp only [List.mem_append] at h
  rcases h with ((h | h) | h) | h
  · by_cases hc : 0 < index % W
    · rw [if_pos hc] at h
      have hpos : 1 ≤ index := le_trans hc (Nat.mod_le index W)
      simp only [List.mem_singleton] at h
      omega
    · rw [if_neg hc] at h
      exact absurd h (List.not_mem_nil nb)
  · by_cases hc : index % W < W - 1
    · rw [if_pos hc] at h
      simp only [List.mem_singleton] at h
      omega
    · rw [if_neg hc] at h
      exact absurd h (List.not_mem_nil nb)
  · by_cases hc : 0 < index / W
    · rw [if_pos hc] at h
      have hge : W ≤ index := by
        by_contra hlt
        rw [Nat.div_eq_of_lt (by omega)] at hc
        exact lt_irrefl 0 hc
      simp only [List.mem_singleton] at h
      omega
    · rw [if_neg hc] at h
      exact absurd h (List.not_mem_nil nb)
  · by_cases hc : index / W < H - 1
    · rw [if_pos hc] at h
      simp only [List.mem_singleton] at h
      omega
    · rw [if_neg hc] at h
      exact absurd h (List.not_mem_nil nb)

lemma randomNeighbor_ne {W H index nb : ℕ} (hW : 1 ≤ W) {u : ℚ}
    (h : randomNeighbor W H index u = some nb) : nb ≠ index :=
  neighborChoices_ne_self hW (List.get?_mem h)

/-- Values of the source and neighbour pixel after one executed transfer. -/
lemma flowIter_transfer_eq {W H : ℕ} (hW : 1 ≤ W) (w : ℕ → ℚ) (r : FlowRand) {nb : ℕ}
    (hnb : randomNeighbor W H (flowIndex W H r) r.uNb = some nb)
    (hwet : ¬ w (flowIndex W H r) < 0.12)
    (hdiff : 0 < w (flowIndex W H r) - w nb) :
    flowIter W H w r (flowIndex W H r) =
      w (flowIndex W H r) -
        (w (flowIndex W H r) - w nb) * (0.12 + spreadRate * r.uTr) ∧
    flowIter W H w r nb =
      min saturationCap
        (w nb + (w (flowIndex W H r) - w nb) * (0.12 + spreadRate * r.uTr) * 0.94) := by
  have hne : nb ≠ flowIndex W H r := randomNeighbor_ne hW hnb
  unfold flowIter
  rw [if_neg hwet, hnb]
  simp only
  rw [if_neg (not_le.mpr hdiff)]
  constructor
  · rw [Function.update_noteq (Ne.symm hne) _ _, Function.update_same]
  · rw [Function.update_same, Function.update_noteq hne]

/-! Evaluation of the concrete 2x2 diffusion iteration used by witnesses. -/

lemma flowIndex_cex : flowIndex 2 2 rCex = 0 := by
  norm_num [flowIndex, rCex]

lemma randomNeighbor_cex : randomNeighbor 2 2 (flowIndex 2 2 rCex) rCex.uNb = some 1 := by
  rw [flowIndex_cex]
  norm_num [randomNeighbor, neighborChoices, rCex]

lemma wet_cex : ¬ wCex (flowIndex 2 2 rCex) < 0.12 := by
  rw [flowIndex_cex]
  norm_num [wCex]

lemma diff_cex : 0 < wCex (flowIndex 2 2 rCex) - wCex 1 := by
  rw [flowIndex_cex]
  norm_num [wCex]

lemma flowIter_cex_src : flowIter 2 2 wCex rCex 0 = 22 / 25 := by
  have h := (flowIter_transfer_eq (by norm_num) wCex rCex randomNeighbor_cex wet_cex diff_cex).1
  rw [flowIndex_cex] at h
  rw [h]
  norm_num [wCex, rCex, spreadRate]

lemma flowIter_cex_nb : flowIter 2 2 wCex rCex 1 = 141 / 1250 := by
  have h := (flowIter_transfer_eq (by norm_num) wCex rCex randomNeighbor_cex wet_cex diff_cex).2
  rw [flowIndex_cex] at h
  rw [h, min_eq_right]
  · norm_num [wCex, rCex, spreadRate]
  · norm_num [wCex, rCex, spreadRate, saturationCap]

/-! Bounds-preservation lemmas for the three field-mutating passes. -/

/-- The heat pulse is non-negative: amplitude times a sine shifted into
[0, 1]. -/
lemma heatPulse_nonneg (t : ℝ) : 0 ≤ heatPulse t := by
  unfold heatPulse
  have hs := Real.neg_one_le_sin
    (jsFmod t ((heatPulsePeriodMs : ℚ) : ℝ) / ((heatPulsePeriodMs : ℚ) : ℝ) * Real.pi * 2)
  have hamp : (0 : ℝ) ≤ ((heatPulseAmplitude : ℚ) : ℝ) := by norm_num [heatPulseAmplitude]
  have : (0 : ℝ) ≤ Real.sin
      (jsFmod t ((heatPulsePeriodMs : ℚ) : ℝ) / ((heatPulsePeriodMs : ℚ) : ℝ) * Real.pi * 2) *
        0.5 + 0.5 := by linarith
  exact mul_nonneg hamp this

/-- Pointwise bounds of one evaporation pass: the result is non-negative
and no larger than the input value. -/
lemma evaporate_le (eM : ℕ → ℝ) (t delta : ℝ) (w : ℕ → ℝ) (hd : 0 ≤ delta)
    (he : ∀ i, 0 ≤ eM i) (hw : ∀ i, 0 ≤ w i) (i : ℕ) :
    0 ≤ evaporate eM t delta w i ∧ evaporate eM t delta w i ≤ w i := by
  unfold evaporate
  have hloss : 0 ≤ (eM i + heatPulse (t + delta)) * delta :=
    mul_nonneg (by linarith [he i, heatPulse_nonneg (t + delta)]) hd
  exact ⟨le_max_left 0 _, max_le (hw i) (by linarith [hw i])⟩

lemma flowIter_bounds (W H : ℕ) (w : ℕ → ℚ) (r : FlowRand)
    (htr0 : 0 ≤ r.uTr) (htr1 : r.uTr < 1)
    (hw : ∀ i, 0 ≤ w i ∧ w i ≤ saturationCap) :
    ∀ i, 0 ≤ flowIter W H w r i ∧ flowIter W H w r i ≤ saturationCap := by
  intro i
  unfold flowIter
  by_cases h1 : w (flowIndex W H r) < 0.12
  · rw [if_pos h1]
    exact hw i
  rw [if_neg h1]
  cases hnb : randomNeighbor W H (flowIndex W H r) r.uNb with
  | none =>
    simp only
    exact hw i
  | some nb =>
    simp only
    by_cases h2 : w (flowIndex W H r) - w nb ≤ 0
    · rw [if_pos h2]
      exact hw i
    rw [if_neg h2]
    push_neg at h2
    have hne : nb ≠ flowIndex W H r := by
      intro h
      rw [h] at h2
      simp at h2
    have hfr0 : (0 : ℚ) < 0.12 + spreadRate * r.uTr := by
      have := mul_nonneg (by norm_num [spreadRate] : (0 : ℚ) ≤ spreadRate) htr0
      linarith
    have hfr1 : 0.12 + spreadRate * r.uTr < 1 := by
      rw [spreadRate]
      nlinarith
    have ht0 : 0 < (w (flowIndex W H r) - w nb) * (0.12 + spreadRate * r.uTr) :=
      mul_pos (by linarith) hfr0
    have ht1 : (w (flowIndex W H r) - w nb) * (0.12 + spreadRate * r.uTr) ≤
        w (flowIndex W H r) - w nb := by
      nlinarith
    have hw1 : ∀ j, 0 ≤ Function.update w (flowIndex W H r)
        (w (flowIndex W H r) -
          (w (flowIndex W H r) - w nb) * (0.12 + spreadRate * r.uTr)) j := by
      intro j
      rcases eq_or_ne j (flowIndex W H r) with hj | hj
      · subst hj
        rw [Function.update_same]
        have := (hw nb).1
        linarith
      · rw [Function.update_noteq hj]
        exact (hw j).1
    rcases eq_or_ne i nb with hi | hi
    · rw [hi, Function.update_same]
      have h94 : 0 ≤ (w (flowIndex W H r) - w nb) * (0.12 + spreadRate * r.uTr) * 0.94 := by
        nlinarith
      refine ⟨le_min (by norm_num [saturationCap]) ?_, min_le_left _ _⟩
      linarith [hw1 nb]
    · rw [Function.update_noteq hi]
      rcases eq_or_ne i (flowIndex W H r) with hj | hj
      · rw [hj, Function.update_same]
        constructor
        · linarith [(hw nb).1]
        · linarith [(hw (flowIndex W H r)).2]
      · rw [Function.update_noteq hj]
        exact hw i

lemma foldl_flowIter_bounds (W H : ℕ) (rands : List FlowRand) :
    ∀ w : ℕ → ℚ, (∀ r ∈ rands, FlowRand.Valid r) →
      (∀ i, 0 ≤ w i ∧ w i ≤ saturationCap) →
      ∀ i, 0 ≤ rands.foldl (flowIter W H) w i ∧
        rands.foldl (flowIter W H) w i ≤ saturationCap := by
  induction rands with
  | nil =>
    intro w _ hw i
    simpa using hw i
  | cons r rest ih =>
    intro w hv hw i
    rw [List.foldl_cons]
    have hvr := hv r (List.mem_cons_self r rest)
    exact ih (flowIter W H w r) (fun x hx => hv x (List.mem_cons_of_mem r hx))
      (flowIter_bounds W H w r hvr.2.2.2.2.1 hvr.2.2.2.2.2 hw) i

lemma capillaryFlow_bounds (W H : ℕ) (ri : ℚ) (rands : List FlowRand) (w : ℕ → ℚ)
    (hv : ∀ r ∈ rands, FlowRand.Valid r)
    (hw : ∀ i, 0 ≤ w i ∧ w i ≤ saturationCap) :
    ∀ i, 0 ≤ capillaryFlow W H ri rands w i ∧ capillaryFlow W H ri rands w i ≤ saturationCap := by
  intro i
  unfold capillaryFlow
  by_cases h : ⌊spreadSamples * ri⌋ < 1
  · rw [if_pos h]
    exact hw i
  · rw [if_neg h]
    exact foldl_flowIter_bounds W H rands w hv hw i

lemma cornerBoostFactor_nonneg (W H : ℕ) (cX cY x y : ℝ) :
    0 ≤ cornerBoostFactor W H cX cY x y := by
  unfold cornerBoostFactor
  have h1 : (0 : ℝ) ≤ (cornerBoostCfg : ℚ) := by norm_num [cornerBoostCfg]
  have h2 : (0 : ℝ) ≤
      (max 0 (1 - max 1 (Real.sqrt ((x - cX) ^ 2 + (y - cY) ^ 2)) /
        (min (W : ℝ) (H : ℝ) * 0.55))) ^ (2.6 : ℝ) :=
    Real.rpow_nonneg (le_max_left 0 _) _
  nlinarith

lemma deposit_bounds_aux (cap v F : ℝ) (hcap : 0 ≤ cap) (hv : 0 ≤ v) (hF : 0 ≤ F) :
    0 ≤ min cap (v + F) ∧ min cap (v + F) ≤ cap :=
  ⟨le_min hcap (by linarith), min_le_left _ _⟩

lemma splash_term_nonneg (D intensity a h boost : ℝ) (hD : D ≤ 1) (hint : 0 ≤ intensity)
    (ha : 0 ≤ a) (hh : 0 ≤ h) (hboost : 0 ≤ boost) :
    0 ≤ (1 - Real.sqrt D) * intensity * ((depositScale : ℚ) : ℝ) * (a * (1 + h * 0.25)) *
      boost := by
  have h1 : Real.sqrt D ≤ 1 := Real.sqrt_le_one.mpr hD
  have h2 : (0 : ℝ) ≤ 1 - Real.sqrt D := by linarith
  have h3 : (0 : ℝ) ≤ ((depositScale : ℚ) : ℝ) := by norm_num [depositScale]
  have h4 : (0 : ℝ) ≤ a * (1 + h * 0.25) := by nlinarith
  exact mul_nonneg (mul_nonneg (mul_nonneg (mul_nonneg h2 hint) h3) h4) hboost

lemma splashAt_bounds (W H : ℕ) (aM hM : ℕ → ℝ) (cX cY : ℝ) (w : ℕ → ℝ)
    (cx cy radius intensity sX sY : ℝ)
    (ha : ∀ i, 0 ≤ aM i) (hh : ∀ i, 0 ≤ hM i)
    (hw : ∀ i, 0 ≤ w i ∧ w i ≤ ((saturationCap : ℚ) : ℝ)) :
    ∀ i, 0 ≤ splashAt W H aM hM cX cY w cx cy radius intensity sX sY i ∧
      splashAt W H aM hM cX cY w cx cy radius intensity sX sY i ≤ ((saturationCap : ℚ) : ℝ) := by
  intro i
  unfold splashAt
  by_cases h1 : radius = 0 ∨ intensity ≤ 0
  · rw [if_pos h1]
    exact hw i
  by_cases h2 : cx < -radius ∨ cy < -radius ∨ (W : ℝ) + radius < cx ∨ (H : ℝ) + radius < cy
  · rw [if_neg h1, if_pos h2]
    exact hw i
  rw [if_neg h1, if_neg h2]
  push_neg at h1
  have hint : 0 ≤ intensity := h1.2.le
  have hcap : (0 : ℝ) ≤ ((saturationCap : ℚ) : ℝ) := by norm_num [saturationCap]
  simp only
  split_ifs
  all_goals try exact hw i
  all_goals rename_i hc
  all_goals refine deposit_bounds_aux _ _ _ hcap (hw i).1 ?_
  all_goals refine splash_term_nonneg _ _ _ _ _ hc.2.2.2.2 hint (ha i) (hh i) ?_
  all_goals exact cornerBoostFactor_nonneg W H cX cY _ _

/-! ### Claim C1 -/

/-- Claim C1: every field-mutating pass keeps every wetMap value inside
[0, saturationCap]: (1) any deposition via splashAt, given non-negative
coefficient maps, (2) any evaporation pass with non-negative delta and
bias map, and (3) any diffusion pass for random draws in [0, 1). -/
theorem wetMap_bounds_invariant :
    (∀ (W H : ℕ) (aM hM : ℕ → ℝ) (cX cY : ℝ) (w : ℕ → ℝ)
        (cx cy radius intensity sX sY : ℝ),
      (∀ i, 0 ≤ aM i) → (∀ i, 0 ≤ hM i) →
      (∀ i, 0 ≤ w i ∧ w i ≤ ((saturationCap : ℚ) : ℝ)) →
      ∀ i, 0 ≤ splashAt W H aM hM cX cY w cx cy radius intensity sX sY i ∧
        splashAt W H aM hM cX cY w cx cy radius intensity sX sY i ≤
          ((saturationCap : ℚ) : ℝ)) ∧
    (∀ (eM : ℕ → ℝ) (t delta : ℝ) (w : ℕ → ℝ),
      0 ≤ delta → (∀ i, 0 ≤ eM i) →
      (∀ i, 0 ≤ w i ∧ w i ≤ ((saturationCap : ℚ) : ℝ)) →
      ∀ i, 0 ≤ evaporate eM t delta w i ∧
        evaporate eM t delta w i ≤ ((saturationCap : ℚ) : ℝ)) ∧
    (∀ (W H : ℕ) (ri : ℚ) (rands : List FlowRand) (w : ℕ → ℚ),
      (∀ r ∈ rands, FlowRand.Valid r) →
      (∀ i, 0 ≤ w i ∧ w i ≤ saturationCap) →
      ∀ i, 0 ≤ capillaryFlow W H ri rands w i ∧
        capillaryFlow W H ri rands w i ≤ saturationCap) := by
  refine ⟨?_, ?_, ?_⟩
  · intro W H aM hM cX cY w cx cy radius intensity sX sY ha hh hw i
    exact splashAt_bounds W H aM hM cX cY w cx cy radius intensity sX sY ha hh hw i
  · intro eM t delta w hd he hw i
    obtain ⟨h0, h1⟩ := evaporate_le eM t delta w hd he (fun j => (hw j).1) i
    exact ⟨h0, le_trans h1 (hw i).2⟩
  · intro W H ri rands w hv hw i
    exact capillaryFlow_bounds W H ri rands w hv hw i

/-- Witness for C1: each of the three passes applied to an in-range
concrete field stays in range at pixel 0. -/
theorem wetMap_bounds_invariant_witness :
    (0 ≤ splashAt 10 10 oneMapR zeroMapR 100 3 zeroMapR 3 3 1 1 1 1 0 ∧
      splashAt 10 10 oneMapR zeroMapR 100 3 zeroMapR 3 3 1 1 1 1 0 ≤
        ((saturationCap : ℚ) : ℝ)) ∧
    (0 ≤ evaporate zeroMapR 0 1 zeroMapR 0 ∧
      evaporate zeroMapR 0 1 zeroMapR 0 ≤ ((saturationCap : ℚ) : ℝ)) ∧
    (0 ≤ capillaryFlow 2 2 1 [rCex] zeroMapQ 0 ∧
      capillaryFlow 2 2 1 [rCex] zeroMapQ 0 ≤ saturationCap) := by
  have h := wetMap_bounds_invariant
  refine ⟨h.1 10 10 oneMapR zeroMapR 100 3 zeroMapR 3 3 1 1 1 1
      (fun i => by norm_num [oneMapR]) (fun i => le_rfl)
      (fun i => ⟨le_rfl, by norm_num [zeroMapR, saturationCap]⟩) 0,
    h.2.1 zeroMapR 0 1 zeroMapR (by norm_num) (fun i => le_rfl)
      (fun i => ⟨le_rfl, by norm_num [zeroMapR, saturationCap]⟩) 0,
    h.2.2 2 2 1 [rCex]
      zeroMapQ ?_ (fun i => ⟨le_rfl, by norm_num [zeroMapQ, saturationCap]⟩) 0⟩
  intro r hr
  rw [List.mem_singleton] at hr
  subst hr
  norm_num [FlowRand.Valid, rCex]

/-! ### Claim C6 -/

/-- Claim C6: for every executed diffusion transfer, the source pixel is
strictly wetter than the chosen neighbour at the moment of transfer:
whenever a flowIter iteration changes the field at all, the wetness of
the picked source pixel strictly exceeded the wetness of the chosen
neighbour. -/
theorem diffusion_no_uphill_transfer (W H : ℕ) (w : ℕ → ℚ) (r : FlowRand) (nb : ℕ)
    (hnb : randomNeighbor W H (flowIndex W H r) r.uNb = some nb)
    (hch : flowIter W H w r ≠ w) :
    w nb < w (flowIndex W H r) := by
  unfold flowIter at hch
  by_cases h1 : w (flowIndex W H r) < 0.12
  · rw [if_pos h1] at hch
    exact absurd rfl hch
  · rw [if_neg h1, hnb] at hch
    simp only at hch
    by_contra hge
    push_neg at hge
    rw [if_pos (by linarith)] at hch
    exact absurd rfl hch

/-- Witness for C6 on a concrete 2x2 field: pixel 0 holds 1, its right
neighbour holds 0, and the iteration executes a transfer. -/
theorem diffusion_no_uphill_transfer_witness :
    wCex 1 < wCex (flowIndex 2 2 rCex) := by
  have hne : flowIter 2 2 wCex rCex ≠ wCex := by
    intro h
    have h0 := congrFun h 0
    rw [flowIter_cex_src] at h0
    norm_num [wCex] at h0
  exact diffusion_no_uphill_transfer 2 2 wCex rCex 1 randomNeighbor_cex hne

/-! ### Claim C2 -/

/-- Claim C2 counterexample: in the transfer executed by flowIter on the
concrete 2x2 field wCex, the amount removed from the source pixel
(0.12 of the difference) is NOT equal to the amount added to the chosen
neighbour (the neighbour only receives 94 percent of it), so diffusion
does not conserve moisture. -/
theorem diffusion_conservation_cex :
    wCex 0 - flowIter 2 2 wCex rCex 0 ≠ flowIter 2 2 wCex rCex 1 - wCex 1 := by
  rw [flowIter_cex_src, flowIter_cex_nb]
  norm_num [wCex]

/-- Claim C2 amended: for every executed diffusion transfer, the source
pixel loses exactly `transfer = diff * (0.12 + spreadRate * random)`,
while the chosen neighbour gains only
`min saturationCap (neighbour + transfer * 0.94) - neighbour`, which is
at most 0.94 * transfer and strictly less than the amount removed:
every executed transfer destroys at least 6 percent of the moved
moisture (more when the neighbour is clamped at the saturation cap). -/
theorem diffusion_transfer_accounting (W H : ℕ) (hW : 1 ≤ W) (w : ℕ → ℚ) (r : FlowRand)
    (nb : ℕ)
    (hnb : randomNeighbor W H (flowIndex W H r) r.uNb = some nb)
    (hwet : ¬ w (flowIndex W H r) < 0.12)
    (hdiff : 0 < w (flowIndex W H r) - w nb)
    (htr : 0 ≤ r.uTr) :
    w (flowIndex W H r) - flowIter W H w r (flowIndex W H r) =
      (w (flowIndex W H r) - w nb) * (0.12 + spreadRate * r.uTr) ∧
    flowIter W H w r nb - w nb =
      min saturationCap
        (w nb + (w (flowIndex W H r) - w nb) * (0.12 + spreadRate * r.uTr) * 0.94) - w nb ∧
    flowIter W H w r nb - w nb ≤
      0.94 * ((w (flowIndex W H r) - w nb) * (0.12 + spreadRate * r.uTr)) ∧
    flowIter W H w r nb - w nb <
      w (flowIndex W H r) - flowIter W H w r (flowIndex W H r) := by
  obtain ⟨hsrc, hnbv⟩ := flowIter_transfer_eq hW w r hnb hwet hdiff
  have htpos : 0 < (w (flowIndex W H r) - w nb) * (0.12 + spreadRate * r.uTr) := by
    have : (0:ℚ) < 0.12 + spreadRate * r.uTr := by
      have : (0:ℚ) ≤ spreadRate * r.uTr := mul_nonneg (by norm_num [spreadRate]) htr
      linarith
    exact mul_pos hdiff this
  have hadd : flowIter W H w r nb - w nb ≤
      0.94 * ((w (flowIndex W H r) - w nb) * (0.12 + spreadRate * r.uTr)) := by
    rw [hnbv]
    have := min_le_right saturationCap
      (w nb + (w (flowIndex W H r) - w nb) * (0.12 + spreadRate * r.uTr) * 0.94)
    linarith
  refine ⟨by rw [hsrc]; ring, by rw [hnbv], hadd, ?_⟩
  rw [hsrc]
  have : (0.94:ℚ) * ((w (flowIndex W H r) - w nb) * (0.12 + spreadRate * r.uTr)) <
      (w (flowIndex W H r) - w nb) * (0.12 + spreadRate * r.uTr) := by linarith
  linarith

/-- Witness for the amended C2 on the concrete 2x2 field wCex. -/
theorem diffusion_transfer_accounting_witness :
    wCex (flowIndex 2 2 rCex) - flowIter 2 2 wCex rCex (flowIndex 2 2 rCex) =
      (wCex (flowIndex 2 2 rCex) - wCex 1) * (0.12 + spreadRate * rCex.uTr) ∧
    flowIter 2 2 wCex rCex 1 - wCex 1 =
      min saturationCap
        (wCex 1 + (wCex (flowIndex 2 2 rCex) - wCex 1) * (0.12 + spreadRate * rCex.uTr) * 0.94) -
        wCex 1 ∧
    flowIter 2 2 wCex rCex 1 - wCex 1 ≤
      0.94 * ((wCex (flowIndex 2 2 rCex) - wCex 1) * (0.12 + spreadRate * rCex.uTr)) ∧
    flowIter 2 2 wCex rCex 1 - wCex 1 <
      wCex (flowIndex 2 2 rCex) - flowIter 2 2 wCex rCex (flowIndex 2 2 rCex) :=
  diffusion_transfer_accounting 2 2 (by norm_num) wCex rCex 1 randomNeighbor_cex wet_cex
    diff_cex (by norm_num [rCex])

/-! ### Claims C10 and C3 (deposition kernel guards) -/

/-- Claim C10: the early-out culling test of splashAt uses the
UNSTRETCHED radius: whenever the centre lies more than one unstretched
radius outside an edge of the surface, the call leaves the field exactly
unchanged, even when stretch factors greater than 1 would make the
deposit ellipse overlap the surface. -/
theorem splash_cull_unstretched_radius (W H : ℕ) (aM hM : ℕ → ℝ) (cX cY : ℝ) (w : ℕ → ℝ)
    (cx cy radius intensity sX sY : ℝ)
    (h : cx < -radius ∨ cy < -radius ∨ (W : ℝ) + radius < cx ∨ (H : ℝ) + radius < cy) :
    splashAt W H aM hM cX cY w cx cy radius intensity sX sY = w := by
  unfold splashAt
  by_cases h1 : radius = 0 ∨ intensity ≤ 0
  · rw [if_pos h1]
  · rw [if_neg h1, if_pos h]

/-- Witness for C10: centre 20 units left of the surface with radius 10,
but stretchX 10, so the stretched ellipse would reach 80 units into the
surface; the call still deposits nothing. -/
theorem splash_cull_unstretched_radius_witness :
    splashAt 100 100 oneMapR zeroMapR 0 0 zeroMapR (-20) 50 10 1 10 10 = zeroMapR :=
  splash_cull_unstretched_radius 100 100 oneMapR zeroMapR 0 0 zeroMapR (-20) 50 10 1 10 10
    (Or.inl (by norm_num))

/-- Evaluation of cornerBoostFactor at a pixel far from the corner:
the smooth corner multiplier bottoms out at exactly 1. -/
lemma cornerBoost_far : cornerBoostFactor 10 10 100 3 3 3 = 1 := by
  unfold cornerBoostFactor
  have h1 : ((3 : ℝ) - 100) ^ 2 + ((3 : ℝ) - 3) ^ 2 = 97 ^ 2 := by norm_num
  rw [h1, Real.sqrt_sq (by norm_num : (0 : ℝ) ≤ 97)]
  have h2 : max (1 : ℝ) 97 = 97 := max_eq_right (by norm_num)
  rw [h2]
  have h3 : min ((10 : ℕ) : ℝ) ((10 : ℕ) : ℝ) = 10 := by norm_num
  rw [h3]
  have h4 : max (0 : ℝ) (1 - 97 / (10 * 0.55)) = 0 := max_eq_left (by norm_num)
  rw [h4, Real.zero_rpow (by norm_num : (2.6 : ℝ) ≠ 0)]
  norm_num

/-- Evaluation of the deposit that splashAt with the NEGATIVE radius -1/2
performs at pixel 33 = 3 * 10 + 3 of a 10x10 surface (absorption 1,
highlight 0, corner far away at (100, 3)): the pixel gains a full
depositScale of moisture although the radius is negative. -/
lemma ceil_five_halves : (⌈(5 / 2 : ℝ)⌉ : ℤ) = 3 := by
  rw [Int.ceil_eq_iff]
  norm_num

lemma splash_eval33 :
    splashAt 10 10 oneMapR zeroMapR 100 3 zeroMapR 3 3 (-(1 / 2)) 1 1 1 33 = 39 / 50 := by
  norm_num [splashAt, oneMapR, zeroMapR, depositScale, saturationCap, cornerBoost_far,
    min_eq_right, ceil_five_halves]

/-- Claim C3 counterexample: splashAt with the non-positive radius -1/2
(and positive intensity) is NOT a no-op: the code guards only on
radius == 0, and a negative radius of magnitude below 1 yields a
non-empty clamped bounding box whose centre pixel receives a deposit
(the elliptical distance uses the squared ratio, so the sign of the
radius cancels). -/
theorem splash_nonpositive_noop_cex :
    splashAt 10 10 oneMapR zeroMapR 100 3 zeroMapR 3 3 (-(1 / 2)) 1 1 1 ≠ zeroMapR := by
  intro h
  have h33 := congrFun h 33
  rw [splash_eval33] at h33
  norm_num [zeroMapR] at h33

/-- Claim C3 amended: a deposition call with radius exactly 0 or with
non-positive intensity is a silent no-op; the source guard `!radius`
rejects only radius 0, not negative radii. -/
theorem splash_zero_radius_noop (W H : ℕ) (aM hM : ℕ → ℝ) (cX cY : ℝ) (w : ℕ → ℝ)
    (cx cy radius intensity sX sY : ℝ) (h : radius = 0 ∨ intensity ≤ 0) :
    splashAt W H aM hM cX cY w cx cy radius intensity sX sY = w := by
  unfold splashAt
  rw [if_pos h]

/-- Witness for the amended C3: radius 0 and separately intensity -1 both
leave the field unchanged. -/
theorem splash_zero_radius_noop_witness :
    splashAt 100 100 oneMapR zeroMapR 0 0 zeroMapR 50 50 0 1 1 1 = zeroMapR ∧
    splashAt 100 100 oneMapR zeroMapR 0 0 zeroMapR 50 50 8 (-1) 1 1 = zeroMapR :=
  ⟨splash_zero_radius_noop 100 100 oneMapR zeroMapR 0 0 zeroMapR 50 50 0 1 1 1 (Or.inl rfl),
   splash_zero_radius_noop 100 100 oneMapR zeroMapR 0 0 zeroMapR 50 50 8 (-1) 1 1
     (Or.inr (by norm_num))⟩

/-! ### Claim C5 (evaporation) -/

/-- Claim C5: on any pixel, the evaporation pass is monotonically
non-increasing and never drives the value below 0, because the additive
heat-pulse term is non-negative and the per-pixel update is
max(0, wetness - (evaporationBias + heatPulse) * deltaTime). -/
theorem evaporate_monotone_nonneg (eM : ℕ → ℝ) (t delta : ℝ) (w : ℕ → ℝ)
    (hd : 0 ≤ delta) (he : ∀ i, 0 ≤ eM i) (hw : ∀ i, 0 ≤ w i) (i : ℕ) :
    evaporate eM t delta w i ≤ w i ∧ 0 ≤ evaporate eM t delta w i ∧
    0 ≤ heatPulse (t + delta) :=
  ⟨(evaporate_le eM t delta w hd he hw i).2, (evaporate_le eM t delta w hd he hw i).1,
    heatPulse_nonneg (t + delta)⟩

/-- Witness for C5 at the everywhere-1 field with zero bias map. -/
theorem evaporate_monotone_nonneg_witness :
    evaporate zeroMapR 0 1 oneMapR 0 ≤ oneMapR 0 ∧ 0 ≤ evaporate zeroMapR 0 1 oneMapR 0 ∧
    0 ≤ heatPulse (0 + 1) :=
  evaporate_monotone_nonneg zeroMapR 0 1 oneMapR (by norm_num)
    (fun i => le_rfl) (fun i => by norm_num [oneMapR]) 0

/-! ### Claim C9 -/

/-- Claim C9: for every executed diffusion transfer whose neighbour is not
clamped by the saturation cap, the wetness ordering of the two pixels is
preserved (the transfer fraction, strictly below 0.12 + spreadRate,
cannot overshoot and reverse the gradient), and the source pixel stays
non-negative although the code applies no lower clamp to it. -/
theorem diffusion_order_preserving (W H : ℕ) (hW : 1 ≤ W) (w : ℕ → ℚ) (r : FlowRand) (nb : ℕ)
    (hnb : randomNeighbor W H (flowIndex W H r) r.uNb = some nb)
    (hwet : ¬ w (flowIndex W H r) < 0.12)
    (hdiff : 0 < w (flowIndex W H r) - w nb)
    (htr0 : 0 ≤ r.uTr) (htr1 : r.uTr < 1)
    (hnn : 0 ≤ w nb)
    (hnoclamp :
      w nb + (w (flowIndex W H r) - w nb) * (0.12 + spreadRate * r.uTr) * 0.94 ≤ saturationCap) :
    flowIter W H w r nb ≤ flowIter W H w r (flowIndex W H r) ∧
    0 ≤ flowIter W H w r (flowIndex W H r) := by
  obtain ⟨hsrc, hnbv⟩ := flowIter_transfer_eq hW w r hnb hwet hdiff
  rw [min_eq_right hnoclamp] at hnbv
  have hfrac0 : (0:ℚ) ≤ 0.12 + spreadRate * r.uTr := by
    have := mul_nonneg (by norm_num [spreadRate] : (0:ℚ) ≤ spreadRate) htr0
    linarith
  have hfrac1 : 0.12 + spreadRate * r.uTr < 0.24 := by
    have := mul_lt_mul_of_pos_left htr1 (by norm_num [spreadRate] : (0:ℚ) < spreadRate)
    rw [mul_one] at this
    rw [spreadRate] at this ⊢
    linarith
  constructor
  · rw [hsrc, hnbv]
    nlinarith [hdiff, hfrac1, hfrac0]
  · rw [hsrc]
    nlinarith [hdiff, hfrac1, hfrac0, hnn]

/-! ### Claim C8 (wall droplet hand-off) -/

lemma wall_ne_floor : Surface.wall ≠ Surface.floor := by
  intro h
  cases h

/-- One tick of a wall droplet that has not yet splashed: either it stays
a wall droplet with the flag still clear and no terminal deposit, or it
crosses the hand-off line, becomes a floor droplet with the flag set, and
fires exactly one terminal deposit. -/
lemma stepDroplet_wall (geo : Geo) (pr width height delta : ℚ) (r : DropRand) (d : Droplet)
    (hs : d.surface = Surface.wall) (hf : d.hasSplashed = false) :
    ((stepDroplet geo pr width height delta r d).droplet.surface = Surface.wall ∧
     (stepDroplet geo pr width height delta r d).droplet.hasSplashed = false ∧
     (stepDroplet geo pr width height delta r d).terminalCount = 0) ∨
    ((stepDroplet geo pr width height delta r d).droplet.surface = Surface.floor ∧
     (stepDroplet geo pr width height delta r d).droplet.hasSplashed = true ∧
     (stepDroplet geo pr width height delta r d).terminalCount = 1) := by
  obtain ⟨surf, x, y, vx, vy, radius, strength, life, hsp⟩ := d
  cases surf
  case floor => simp at hs
  case wall =>
  simp only at hf
  subst hf
  simp only [stepDroplet, updateWallDroplet, StepResult.terminalCount]
  split_ifs with h1 h2 h3 h4
  all_goals simp_all [Option.elim, wall_ne_floor]

/-- One tick of a floor droplet whose terminal splash has already fired:
it stays a floor droplet, the flag stays set, and no terminal deposit
fires (in particular not at retirement). -/
lemma stepDroplet_floor (geo : Geo) (pr width height delta : ℚ) (r : DropRand) (d : Droplet)
    (hs : d.surface = Surface.floor) (hf : d.hasSplashed = true) :
    (stepDroplet geo pr width height delta r d).droplet.surface = Surface.floor ∧
    (stepDroplet geo pr width height delta r d).droplet.hasSplashed = true ∧
    (stepDroplet geo pr width height delta r d).terminalCount = 0 := by
  obtain ⟨surf, x, y, vx, vy, radius, strength, life, hsp⟩ := d
  cases surf
  case wall => simp at hs
  case floor =>
  simp only at hf
  subst hf
  simp only [stepDroplet, updateFloorDroplet, StepResult.terminalCount]
  split_ifs with h1 h2
  all_goals simp_all [Option.elim, wall_ne_floor]

lemma runDroplet_floor (geo : Geo) (pr width height : ℚ) :
    ∀ (trace : List (ℚ × DropRand)) (d : Droplet),
      d.surface = Surface.floor → d.hasSplashed = true →
      (runDroplet geo pr width height trace d).1.surface = Surface.floor ∧
      (runDroplet geo pr width height trace d).1.hasSplashed = true ∧
      (runDroplet geo pr width height trace d).2.2 = 0 := by
  intro trace
  induction trace with
  | nil =>
    intro d hs hf
    exact ⟨hs, hf, rfl⟩
  | cons p rest ih =>
    intro d hs hf
    obtain ⟨delta, r⟩ := p
    obtain ⟨h1, h2, h3⟩ := stepDroplet_floor geo pr width height delta r d hs hf
    simp only [runDroplet]
    by_cases hr : (stepDroplet geo pr width height delta r d).retired
    · rw [if_pos hr]
      exact ⟨h1, h2, h3⟩
    · rw [if_neg hr]
      obtain ⟨g1, g2, g3⟩ := ih (stepDroplet geo pr width height delta r d).droplet h1 h2
      exact ⟨g1, g2, by rw [h3, g3]⟩

lemma runDroplet_wall (geo : Geo) (pr width height : ℚ) :
    ∀ (trace : List (ℚ × DropRand)) (d : Droplet),
      d.surface = Surface.wall → d.hasSplashed = false →
      (runDroplet geo pr width height trace d).2.2 =
        (if (runDroplet geo pr width height trace d).1.surface = Surface.floor then 1
          else 0) := by
  intro trace
  induction trace with
  | nil =>
    intro d hs hf
    simp only [runDroplet]
    rw [if_neg (show ¬ d.surface = Surface.floor by rw [hs]; exact wall_ne_floor)]
  | cons p rest ih =>
    intro d hs hf
    obtain ⟨delta, r⟩ := p
    simp only [runDroplet]
    rcases stepDroplet_wall geo pr width height delta r d hs hf with ⟨h1, h2, h3⟩ | ⟨h1, h2, h3⟩
    · by_cases hr : (stepDroplet geo pr width height delta r d).retired
      · rw [if_pos hr, h3, if_neg (show
          ¬ (stepDroplet geo pr width height delta r d).droplet.surface = Surface.floor by
            rw [h1]; exact wall_ne_floor)]
      · rw [if_neg hr]
        have hih := ih (stepDroplet geo pr width height delta r d).droplet h1 h2
        rw [h3, hih, Nat.zero_add]
    · by_cases hr : (stepDroplet geo pr width height delta r d).retired
      · rw [if_pos hr, h3, if_pos h1]
      · rw [if_neg hr]
        obtain ⟨g1, g2, g3⟩ :=
          runDroplet_floor geo pr width height rest
            (stepDroplet geo pr width height delta r d).droplet h1 h2
        rw [h3, g3, if_pos g1]

/-- Claim C8: a droplet spawned on the wall that has not yet splashed
fires exactly one terminal (larger) deposit over any run of ticks, and it
fires it exactly when the droplet crosses the hand-off line and converts
to the floor-flowing state; in particular no second terminal deposit
fires at retirement, because the has-splashed flag is set at the
transition.  The terminal-deposit count of a run equals 1 precisely when
the droplet ends in the floor state, and is 0 otherwise. -/
theorem wall_droplet_single_terminal_deposit (geo : Geo) (pr width height : ℚ)
    (trace : List (ℚ × DropRand)) (d : Droplet)
    (hs : d.surface = Surface.wall) (hf : d.hasSplashed = false) :
    (runDroplet geo pr width height trace d).2.2 ≤ 1 ∧
    (runDroplet geo pr width height trace d).2.2 =
      (if (runDroplet geo pr width height trace d).1.surface = Surface.floor then 1
        else 0) := by
  have h := runDroplet_wall geo pr width height trace d hs hf
  refine ⟨?_, h⟩
  rw [h]
  split_ifs
  · exact le_rfl
  · exact Nat.zero_le 1

/-- Witness for C8: a concrete wall droplet sitting on the hand-off line
crosses it in a single 16ms tick, fires its one terminal deposit and ends
in the floor state. -/
theorem wall_droplet_single_terminal_deposit_witness :
    (runDroplet geoW 1 200 200 traceW dW).2.2 ≤ 1 ∧
    (runDroplet geoW 1 200 200 traceW dW).2.2 = 1 := by
  obtain ⟨h1, h2⟩ :=
    wall_droplet_single_terminal_deposit geoW 1 200 200 traceW dW rfl rfl
  refine ⟨h1, ?_⟩
  rw [h2, if_pos]
  norm_num [runDroplet, stepDroplet, updateWallDroplet, geoW, dW, traceW, gravityWall,
    wallMaxSpeed, floorMinSpeed, randomRange]

/-! ### Claim C7 (spawn-rate fidelity) -/

/-- Invariant of the spawn accumulator: it always stays in [0, 1), and
total spawned plus accumulator equals the exact fractional target, as
long as the droplet cap never truncates a tick. -/
lemma spawnRun_invariant (ri delta : ℚ) (lens : ℕ → ℕ)
    (ht : 0 ≤ baseDensity * ri * delta) :
    ∀ N : ℕ,
      (∀ k, k < N →
        (⌊(spawnRun ri delta lens k).2 + baseDensity * ri * delta⌋).toNat ≤
          maxDroplets - lens k) →
      0 ≤ (spawnRun ri delta lens N).2 ∧ (spawnRun ri delta lens N).2 < 1 ∧
      ((spawnRun ri delta lens N).1 : ℚ) + (spawnRun ri delta lens N).2 =
        N * (baseDensity * ri * delta) := by
  intro N
  induction N with
  | zero =>
    intro _
    norm_num [spawnRun]
  | succ n ih =>
    intro hcap
    obtain ⟨h0, h1, hsum⟩ := ih (fun k hk => hcap k (Nat.lt_succ_of_lt hk))
    have hacc1 : 0 ≤ (spawnRun ri delta lens n).2 + baseDensity * ri * delta := by linarith
    have hfl0 : 0 ≤ ⌊(spawnRun ri delta lens n).2 + baseDensity * ri * delta⌋ :=
      Int.floor_nonneg.mpr hacc1
    have hmin :
        min (⌊(spawnRun ri delta lens n).2 + baseDensity * ri * delta⌋).toNat
          (maxDroplets - lens n) =
        (⌊(spawnRun ri delta lens n).2 + baseDensity * ri * delta⌋).toNat :=
      min_eq_left (hcap n (Nat.lt_succ_self n))
    have hfr0 := Int.fract_nonneg ((spawnRun ri delta lens n).2 + baseDensity * ri * delta)
    have hfr1 := Int.fract_lt_one ((spawnRun ri delta lens n).2 + baseDensity * ri * delta)
    have hfract : (spawnRun ri delta lens n).2 + baseDensity * ri * delta -
        ⌊(spawnRun ri delta lens n).2 + baseDensity * ri * delta⌋ =
        Int.fract ((spawnRun ri delta lens n).2 + baseDensity * ri * delta) := rfl
    have hcast :
        ((⌊(spawnRun ri delta lens n).2 + baseDensity * ri * delta⌋.toNat : ℕ) : ℚ) =
        ((⌊(spawnRun ri delta lens n).2 + baseDensity * ri * delta⌋ : ℤ) : ℚ) := by
      exact_mod_cast Int.toNat_of_nonneg hfl0
    simp only [spawnRun, spawnRain, hmin]
    refine ⟨by rw [hfract]; exact hfr0, by rw [hfract]; exact hfr1, ?_⟩
    push_cast
    push_cast at hsum hcast
    ring_nf
    ring_nf at hsum hcast
    linarith [hcast, hsum]

/-- Claim C7: over N ticks with constant deltaTime and rainIntensity
during which the hard droplet cap never truncates a spawn burst, the
total number of droplets spawned differs from
baseDensity * rainIntensity * N * deltaTime by less than one droplet:
the fractional accumulator carries remainders exactly. -/
theorem spawn_rate_fidelity (ri delta : ℚ) (lens : ℕ → ℕ) (N : ℕ)
    (hri : 0 ≤ ri) (hd : 0 ≤ delta)
    (hcap : ∀ k, k < N →
      (⌊(spawnRun ri delta lens k).2 + baseDensity * ri * delta⌋).toNat ≤
        maxDroplets - lens k) :
    |((spawnRun ri delta lens N).1 : ℚ) - N * (baseDensity * ri * delta)| < 1 := by
  have ht : 0 ≤ baseDensity * ri * delta :=
    mul_nonneg (mul_nonneg (by norm_num [baseDensity]) hri) hd
  obtain ⟨h0, h1, hsum⟩ := spawnRun_invariant ri delta lens ht N hcap
  rw [abs_lt]
  constructor
  · linarith
  · linarith

/-- Witness for C7: rain intensity 5/8 and delta 1 for two ticks with no
live droplets spawn 3 droplets, exactly the fractional target 2 * 1.5. -/
theorem spawn_rate_fidelity_witness :
    |((spawnRun (5 / 8) 1 (fun _ => 0) 2).1 : ℚ) - 2 * (baseDensity * (5 / 8) * 1)| < 1 := by
  refine spawn_rate_fidelity (5 / 8) 1 (fun _ => 0) 2 (by norm_num) (by norm_num) ?_
  intro k hk
  interval_cases k
  · norm_num [spawnRun, spawnRain, baseDensity, maxDroplets]
  · norm_num [spawnRun, spawnRain, baseDensity, maxDroplets]

/-! ### Claim C4 -/

/-- Claim C4 counterexample: randomNeighbor contains no drain point and no
alignment term at all — the selection weight of every in-bounds axis
neighbour is the same.  Concretely, at the centre pixel (index 4) of a
3x3 grid the left, right, up and down neighbours (indices 3, 5, 1, 7)
all have selection weight exactly 1/4, so no neighbour aligned with any
purported drain direction gets an increased weight. -/
theorem neighbor_drain_bias_cex :
    neighborWeight 3 3 4 3 = 1 / 4 ∧ neighborWeight 3 3 4 5 = 1 / 4 ∧
    neighborWeight 3 3 4 1 = 1 / 4 ∧ neighborWeight 3 3 4 7 = 1 / 4 := by
  refine ⟨?_, ?_, ?_, ?_⟩ <;> norm_num [neighborWeight, neighborChoices]

/-- Claim C4 amended: the neighbour choice is UNIFORM among the in-bounds
axis neighbours, with no drain bias: the candidate list holds exactly the
in-bounds neighbours, and position j of that list is selected precisely
when the uniform draw u lies in [j/len, (j+1)/len) — each candidate owns
an interval of equal length 1/len, so every in-bounds neighbour remains
selectable with equal positive probability. -/
theorem randomNeighbor_uniform_choice (W H index j : ℕ)
    (hj : j < (neighborChoices W H index).length) (u : ℚ)
    (h0 : (j : ℚ) / ((neighborChoices W H index).length : ℚ) ≤ u)
    (h1 : u < ((j : ℚ) + 1) / ((neighborChoices W H index).length : ℚ)) :
    randomNeighbor W H index u = some ((neighborChoices W H index).get ⟨j, hj⟩) := by
  have hlen : (0 : ℚ) < ((neighborChoices W H index).length : ℚ) := by
    exact_mod_cast Nat.pos_of_ne_zero (by omega)
  have hfl : ⌊u * ((neighborChoices W H index).length : ℚ)⌋ = (j : ℤ) := by
    rw [Int.floor_eq_iff]
    constructor
    · push_cast
      exact (div_le_iff₀ hlen).mp h0
    · push_cast
      exact (lt_div_iff₀ hlen).mp h1
  unfold randomNeighbor
  simp only [hfl, Int.toNat_natCast]
  exact List.get?_eq_get hj

/-- Witness for the amended C4: at the centre of a 3x3 grid, a draw in
[0, 1/4) selects the first candidate, the left neighbour (index 3). -/
theorem randomNeighbor_uniform_choice_witness :
    randomNeighbor 3 3 4 (1 / 8) = some 3 := by
  have h := randomNeighbor_uniform_choice 3 3 4 0
    (by norm_num [neighborChoices]) (1 / 8)
    (by norm_num [neighborChoices]) (by norm_num [neighborChoices])
  rw [h]
  norm_num [neighborChoices]

/-- Witness for C9 on the concrete 2x2 field wCex. -/
theorem diffusion_order_preserving_witness :
    flowIter 2 2 wCex rCex 1 ≤ flowIter 2 2 wCex rCex (flowIndex 2 2 rCex) ∧
    0 ≤ flowIter 2 2 wCex rCex (flowIndex 2 2 rCex) :=
  diffusion_order_preserving 2 2 (by norm_num) wCex rCex 1 randomNeighbor_cex wet_cex
    diff_cex (by norm_num [rCex]) (by norm_num [rCex]) (by norm_num [wCex])
    (by rw [flowIndex_cex]; norm_num [wCex, rCex, spreadRate, saturationCap])

end Ame
